import Mathlib

set_option maxRecDepth 8000
set_option maxHeartbeats 1000000

/-!
Verification development for the CreatorPulse trend scoring and ranking core.

The embedding models the TypeScript functions `calculateTrendScore`,
`combineAndRankTrends` and `convertYouTubeToRankedTrends` (trend ranking
module) together with `extractTrendingTopics` (crawler utility module).

Modelling conventions, used consistently below:

* JavaScript `number` values carried by candidate records (metric counts,
  stored scores, millisecond epoch times, configuration numbers) are modelled
  as rationals; every finite JS float is a rational number.  Scores produced
  by `calculateTrendScore` involve `Math.exp` and `Math.log10`, so those are
  modelled in the real numbers with `Real.exp` and `Real.logb 10`.
* JS `NaN` is modelled by `Option`: `none` is `NaN`.  The only sources of
  `NaN` reached by the modelled code paths are `new Date(s).getTime()` for an
  unparseable string and `parseInt` on a non-numeric string, and `NaN`
  propagates through arithmetic via `Option.map`.  (`Real.logb` is used for
  `Math.log10`; for arguments `≤ 0`, where JS would give `NaN`/`-Infinity`
  and Mathlib gives junk values, the theorems below carry the non-negativity
  hypotheses that keep the model faithful.)
* A candidate `timestamp` string only ever flows into `new Date(...)`, so it
  is modelled by its parse status: `Timestamp.missing` for `undefined` or the
  empty string (both falsy in JS), `Timestamp.invalid` for a non-empty string
  that does not parse (an Invalid Date, whose `getTime()` is `NaN`), and
  `Timestamp.valid ms` for a string parsing to `ms` milliseconds since epoch.
* A missing `metrics` object and a `metrics` object with all fields absent
  behave identically in the source (every read is `metrics.f || 0`), so
  `Metrics` is a record of `Option` fields; `none` covers an absent field and
  a `NaN` field, both falsy, hence both read as `0`.
* `Array.prototype.sort` with the comparator `(a, b) => b.score.overall -
  a.score.overall` is a stable sort (ES2019); it is modelled by a stable
  insertion sort on the same key.  A comparator application in which one
  overall is `NaN` returns `NaN`, which the JS sort treats as `0` (keep
  relative order); the model returns `false` (no strict descent) in that
  case, which matches.
* JS `toLowerCase`/`match` on the ASCII text handled here are modelled with
  `Char.toLower` and hand-rolled scanners for the three regular expressions
  appearing in the source.
-/

namespace CreatorPulse

/-- The `category` union type of `RankedTrend`. -/
inductive Category
  | technology
  | business
  | social
  | entertainment
  | science
  | general
deriving DecidableEq, Repr

/-- The string the category literal denotes in JS (used by
`categories.includes(trend.category)`). -/
def Category.jsName : Category → String
  | .technology => "technology"
  | .business => "business"
  | .social => "social"
  | .entertainment => "entertainment"
  | .science => "science"
  | .general => "general"

/-- The `sourceType` union type of `RankedTrend`. -/
inductive SourceType
  | x
  | youtube
  | news
  | global
deriving DecidableEq, Repr

/-- Parse status of a timestamp string (see the module docstring). -/
inductive Timestamp
  | missing
  | invalid
  | valid (ms : ℚ)
deriving DecidableEq, Repr

/-- The `metrics` record of `RankedTrend`; `none` models an absent (or `NaN`,
equally falsy) field. -/
structure Metrics where
  likes : Option ℚ
  shares : Option ℚ
  comments : Option ℚ
  retweets : Option ℚ
  views : Option ℚ
deriving DecidableEq, Repr

/-- The `TrendScore` record; `none` models `NaN`.  The numeric type is a
parameter: `ℝ` where scores are computed, `ℚ` where stored scores are only
compared. -/
structure TrendScore (α : Type) where
  recency : Option α
  popularity : Option α
  engagement : Option α
  overall : Option α
deriving DecidableEq, Repr

/-- The `RankedTrend` record of the source. -/
structure RankedTrend (α : Type) where
  id : String
  title : String
  content : String
  source : String
  sourceType : SourceType
  url : String
  timestamp : Timestamp
  metrics : Metrics
  score : TrendScore α
  tags : List String
  category : Category
deriving DecidableEq, Repr

/-! ## Scorer (`calculateTrendScore`, part_004 lines 127-159) -/

/-- `(now.getTime() - new Date(trend.timestamp || now).getTime()) / (1000*60*60)`:
the age in hours used by the scorer.  A falsy timestamp (`undefined` or `""`)
falls back to `now`, so the age is `0`; an unparseable timestamp gives `NaN`. -/
def scorerAgeInHours (now : ℚ) : Timestamp → Option ℚ
  | .missing => some 0
  | .invalid => none
  | .valid ms => some ((now - ms) / (1000 * 60 * 60))

/-- `totalEngagement = (likes||0) + (shares||0) + (comments||0) + (retweets||0) + (views||0)/100`. -/
def totalEngagementOf (m : Metrics) : ℚ :=
  m.likes.getD 0 + m.shares.getD 0 + m.comments.getD 0 + m.retweets.getD 0 + m.views.getD 0 / 100

/-- `activeEngagement = (comments||0) + (shares||0) + (retweets||0)`. -/
def activeEngagementOf (m : Metrics) : ℚ :=
  m.comments.getD 0 + m.shares.getD 0 + m.retweets.getD 0

/-- `totalImpressions = Math.max(views||0, likes||0)`. -/
def totalImpressionsOf (m : Metrics) : ℚ :=
  max (m.views.getD 0) (m.likes.getD 0)

/-- All metric fields are non-negative where present (equivalently: every
`metrics.f || 0` read is non-negative). -/
def MetricsNonneg (m : Metrics) : Prop :=
  0 ≤ m.likes.getD 0 ∧ 0 ≤ m.shares.getD 0 ∧ 0 ≤ m.comments.getD 0 ∧
    0 ≤ m.retweets.getD 0 ∧ 0 ≤ m.views.getD 0

instance (m : Metrics) : Decidable (MetricsNonneg m) := by
  unfold MetricsNonneg; infer_instance

/-- `recency = Math.max(0, Math.min(1, Math.exp(-ageInHours / 24)))`
(part_004, line 133); `NaN` in gives `NaN` out (`Math.exp`, `min` and `max`
all propagate `NaN`). -/
noncomputable def recencyOf (now : ℚ) (ts : Timestamp) : Option ℝ :=
  (scorerAgeInHours now ts).map fun a => max 0 (min 1 (Real.exp (-(a : ℝ) / 24)))

/-- `popularity = Math.min(1, Math.log10(totalEngagement + 1) / 6)`
(part_004, line 143). -/
noncomputable def popularityOf (m : Metrics) : ℝ :=
  min 1 (Real.logb 10 ((totalEngagementOf m : ℝ) + 1) / 6)

/-- `engagement = totalImpressions > 0 ? Math.min(1, activeEngagement /
totalImpressions * 100) : 0` (part_004, line 148). -/
noncomputable def engagementOf (m : Metrics) : ℝ :=
  if 0 < totalImpressionsOf m then
    min 1 ((activeEngagementOf m : ℝ) / (totalImpressionsOf m : ℝ) * 100)
  else 0

/-- `calculateTrendScore` (part_004, lines 127-159).  The scorer reads only
`trend.timestamp` and `trend.metrics` of its `Partial<RankedTrend>` argument,
and is evaluated against the wall clock; the model threads `now` (ms since
epoch) explicitly.  `overall = recency*0.4 + popularity*0.4 + engagement*0.2`
(line 151), `NaN` (from the recency of an unparseable timestamp)
propagating. -/
noncomputable def calculateTrendScore (now : ℚ) (trend : RankedTrend ℝ) : TrendScore ℝ :=
  let recency := recencyOf now trend.timestamp
  let popularity := popularityOf trend.metrics
  let engagement := engagementOf trend.metrics
  let overall := recency.map fun r => r * 0.4 + popularity * 0.4 + engagement * 0.2
  { recency := recency, popularity := some popularity,
    engagement := some engagement, overall := overall }

/-! ## Ranker (`combineAndRankTrends`, part_004 lines 269-313) -/

/-- The `options` argument of `combineAndRankTrends`; each field `none` means
the caller omitted the option.  `maxResults` is an integer (every caller
passes an integer literal); `categories` are the raw strings the caller
passes. -/
structure RankOptions (α : Type) where
  maxResults : Option ℤ
  minScore : Option α
  categories : Option (List String)
  timeWindow : Option ℚ

/-- `(now.getTime() - new Date(trend.timestamp).getTime()) / (1000*60*60)` as
computed in the ranker time filter (no `|| now` fallback here: an empty or
unparseable timestamp is an Invalid Date, so the age is `NaN`). -/
def rankerAgeInHours (now : ℚ) : Timestamp → Option ℚ
  | .valid ms => some ((now - ms) / (1000 * 60 * 60))
  | _ => none

/-- `ageInHours <= timeWindow` (false when the age is `NaN`). -/
def agePasses (now : ℚ) (timeWindow : ℚ) (t : RankedTrend α) : Bool :=
  match rankerAgeInHours now t.timestamp with
  | none => false
  | some a => decide (a ≤ timeWindow)

/-- `categories.includes(trend.category)`. -/
def categoryPasses (categories : List String) (t : RankedTrend α) : Bool :=
  categories.contains t.category.jsName

/-- `trend.score.overall >= minScore` (false when `overall` is `NaN`). -/
def scorePasses [LinearOrder α] (minScore : α) (t : RankedTrend α) : Bool :=
  match t.score.overall with
  | none => false
  | some v => decide (minScore ≤ v)

/-- Strict-descent test of the sort comparator
`(a, b) => b.score.overall - a.score.overall`: `u` sorts strictly before `t`
iff the comparator is negative, i.e. `t.overall < u.overall`; when either
side is `NaN` the comparator yields `NaN`, which the sort treats as `0`
(no strict descent). -/
def overallGt [LinearOrder α] (u t : Option α) : Bool :=
  match u, t with
  | some a, some b => decide (b < a)
  | _, _ => false

/-- Stable insertion into a list sorted by the strict-descent test `gt`:
walk past the elements strictly greater than `s`, then place `s` (before any
equal element, preserving input order — the stability guarantee of
`Array.prototype.sort`). -/
def insertStable (gt : β → β → Bool) (s : β) : List β → List β
  | [] => [s]
  | u :: rest => if gt u s then u :: insertStable gt s rest else s :: u :: rest

/-- Stable sort by the strict-descent test `gt` (models the ES2019 stable
`Array.prototype.sort`). -/
def sortStable (gt : β → β → Bool) : List β → List β
  | [] => []
  | s :: rest => insertStable gt s (sortStable gt rest)

/-- `array.slice(0, e)` : for `e < 0` the end index counts from the end of
the array (`max(length + e, 0)`), otherwise it is clamped to the length. -/
def jsSliceTo (e : ℤ) (l : List β) : List β :=
  if e < 0 then l.take (l.length + e).toNat else l.take e.toNat

/-- `combineAndRankTrends` (part_004, lines 269-313), with the wall-clock
`now` (ms since epoch) threaded explicitly. -/
def combineAndRankTrends [LinearOrderedField α] (now : ℚ)
    (userTrends globalTrends : List (RankedTrend α)) (options : RankOptions α) :
    List (RankedTrend α) :=
  let maxResults := options.maxResults.getD 50
  let minScore := options.minScore.getD 0.1
  let categories := options.categories.getD []
  let timeWindow := options.timeWindow.getD 24
  let allTrends := userTrends ++ globalTrends
  let filtered := allTrends.filter (agePasses now timeWindow)
  let categoryFiltered :=
    if categories.length > 0 then filtered.filter (categoryPasses categories) else filtered
  let scoreFiltered := categoryFiltered.filter (scorePasses minScore)
  let sorted := sortStable (fun u t => overallGt u.score.overall t.score.overall) scoreFiltered
  jsSliceTo maxResults sorted

/-! ## YouTube normalizer (`convertYouTubeToRankedTrends`, part_004 lines 209-232) -/

/-- The `statistics` field of a `YouTubeVideo` (string-encoded counters). -/
structure YouTubeStatistics where
  viewCount : Option String
  likeCount : Option String
  commentCount : Option String
deriving DecidableEq, Repr

/-- The `snippet` field of a `YouTubeVideo`.  `publishedAt` is a timestamp
string, modelled by its parse status; `none` means the field is absent or the
empty string (both falsy, both sent to the `||` fallback). -/
structure YouTubeSnippet where
  title : Option String
  description : Option String
  channelTitle : Option String
  publishedAt : Option Timestamp
  tags : Option (List String)
deriving DecidableEq, Repr

/-- The `YouTubeVideo` interface of part_004. -/
structure YouTubeVideo where
  id : String
  snippet : Option YouTubeSnippet
  statistics : Option YouTubeStatistics
deriving DecidableEq, Repr

/-- `s || d` for an optional string: the fallback is taken when the field is
absent or the empty string (both falsy). -/
def jsOrStr (s : Option String) (d : String) : String :=
  match s with
  | none => d
  | some v => if v = "" then d else v

/-- JS whitespace accepted (and skipped) by `parseInt`. -/
def isJsSpace (c : Char) : Bool :=
  c = ' ' || c = '\t' || c = '\n' || c = '\r' || c = '\x0b' || c = '\x0c' || c = '\u00A0'

/-- Hex digit test for `parseInt` with a `0x` prefix. -/
def isHexDigitChar (c : Char) : Bool :=
  c.isDigit || ('a' ≤ c && c ≤ 'f') || ('A' ≤ c && c ≤ 'F')

/-- Numeric value of a digit character. -/
def digitValue (c : Char) : ℕ :=
  if c.isDigit then c.toNat - 48
  else if 'a' ≤ c ∧ c ≤ 'f' then c.toNat - 97 + 10
  else if 'A' ≤ c ∧ c ≤ 'F' then c.toNat - 65 + 10
  else 0

/-- Value of a digit string in the given base. -/
def natOfDigits (base : ℕ) (ds : List Char) : ℕ :=
  ds.foldl (fun acc c => acc * base + digitValue c) 0

/-- JS `parseInt(s)` (no radix argument): skip whitespace, read an optional
sign, detect a `0x`/`0X` prefix (hex), then read the longest prefix of
digits; no digits means `NaN` (`none`).  The value is exact (the float
rounding JS applies beyond 2^53 is not modelled; all counters in scope are
far smaller). -/
def jsParseInt (s : String) : Option ℤ :=
  let cs := s.toList.dropWhile isJsSpace
  let signAndRest : ℤ × List Char :=
    match cs with
    | '-' :: rest => (-1, rest)
    | '+' :: rest => (1, rest)
    | _ => (1, cs)
  let sign := signAndRest.1
  match signAndRest.2 with
  | '0' :: x :: rest =>
    if x = 'x' ∨ x = 'X' then
      let ds := rest.takeWhile isHexDigitChar
      if ds = [] then none else some (sign * (natOfDigits 16 ds : ℤ))
    else
      some (sign * (natOfDigits 10 (('0' :: x :: rest).takeWhile Char.isDigit) : ℤ))
  | cs1 =>
    let ds := cs1.takeWhile Char.isDigit
    if ds = [] then none else some (sign * (natOfDigits 10 ds : ℤ))

/-- `snippet?.publishedAt || new Date().toISOString()`: the fallback (the
current instant, a valid timestamp) is taken when the field is absent or the
empty string. -/
def jsOrTimestamp (s : Option Timestamp) (now : ℚ) : Timestamp :=
  match s with
  | none => .valid now
  | some .missing => .valid now
  | some t => t

/-- Conversion of a single video inside `convertYouTubeToRankedTrends`
(part_004, lines 210-231): build the record (with a zero score), then replace
the score by `calculateTrendScore` of the record. -/
noncomputable def convertYouTubeOne (now : ℚ) (video : YouTubeVideo) : RankedTrend ℝ :=
  let base : RankedTrend ℝ :=
    { id := "yt_" ++ video.id
      title := jsOrStr (video.snippet.bind (fun s => s.title)) "Untitled Video"
      content := jsOrStr (video.snippet.bind (fun s => s.description)) ""
      source := jsOrStr (video.snippet.bind (fun s => s.channelTitle)) "Unknown Channel"
      sourceType := .youtube
      url := "https://youtube.com/watch?v=" ++ video.id
      timestamp := jsOrTimestamp (video.snippet.bind (fun s => s.publishedAt)) now
      metrics :=
        { views := (jsParseInt (jsOrStr (video.statistics.bind (fun s => s.viewCount)) "0")).map
            (fun n : ℤ => (n : ℚ))
          likes := (jsParseInt (jsOrStr (video.statistics.bind (fun s => s.likeCount)) "0")).map
            (fun n : ℤ => (n : ℚ))
          comments := (jsParseInt (jsOrStr (video.statistics.bind (fun s => s.commentCount)) "0")).map
            (fun n : ℤ => (n : ℚ))
          shares := none
          retweets := none }
      score := { recency := some 0, popularity := some 0, engagement := some 0, overall := some 0 }
      tags := (video.snippet.bind (fun s => s.tags)).getD []
      category := .general }
  { base with score := calculateTrendScore now base }

/-- `convertYouTubeToRankedTrends` (part_004, lines 209-232). -/
noncomputable def convertYouTubeToRankedTrends (now : ℚ) (videos : List YouTubeVideo) :
    List (RankedTrend ℝ) :=
  videos.map (convertYouTubeOne now)

/-! ## Trending-topic extraction (`extractTrendingTopics`,
src/lib/favicon-utils.ts lines 525-585) -/

/-- JS regex word character `\w` = `[A-Za-z0-9_]`. -/
def isWordChar (c : Char) : Bool :=
  c.isAlphanum || c = '_'

/-- All matches of the regex `/p[\w\d_]+/g` (`p` is `#` or `@` below): scan
left to right; at an occurrence of `p` followed by at least one word
character, the match is `p` plus the maximal word-character run, and the scan
resumes after the match.  The scanner is fuel-indexed to make it structurally
recursive (hence kernel-evaluable); each step consumes at least one
character, so fuel equal to the text length (as the wrapper below passes)
never runs out. -/
def tokenMatchesF (p : Char) : ℕ → List Char → List (List Char)
  | 0, _ => []
  | _ + 1, [] => []
  | fuel + 1, c :: cs =>
    if c = p ∧ cs.takeWhile isWordChar ≠ [] then
      (c :: cs.takeWhile isWordChar) :: tokenMatchesF p fuel (cs.dropWhile isWordChar)
    else
      tokenMatchesF p fuel cs

/-- All matches of `/p[\w\d_]+/g` over a character list. -/
def tokenMatches (p : Char) (l : List Char) : List (List Char) :=
  tokenMatchesF p l.length l

/-- The `trendingKeywords` vocabulary of `extractTrendingTopics`, in source
order. -/
def trendingKeywords : List String :=
  ["artificial intelligence", "machine learning", "chatgpt", "openai", "claude",
   "generative ai", "llm", "transformer", "neural network",
   "bitcoin", "ethereum", "defi", "nft", "web3", "blockchain", "crypto",
   "solana", "cardano", "polygon",
   "funding round", "series a", "ipo", "acquisition", "merger", "valuation",
   "startup", "unicorn", "yc", "y combinator",
   "react", "next.js", "typescript", "python", "rust", "go", "kubernetes",
   "docker", "aws", "vercel", "supabase", "firebase",
   "viral", "trending", "breaking", "announcement", "launch", "release"]

/-- One pattern character of the keyword regex
`new RegExp("\b" + keyword + "\b", "gi")`: the keywords are lowercase
literals except that `.` (in `next.js`) is the regex wildcard, matching any
character but a line terminator; the `i` flag makes the comparison
case-insensitive. -/
def charPatMatches (p c : Char) : Bool :=
  if p = '.' then c ≠ '\n' && c ≠ '\r' else p = c.toLower

/-- Does the keyword pattern match a prefix of the text? -/
def keywordMatchesAt : List Char → List Char → Bool
  | [], _ => true
  | _ :: _, [] => false
  | p :: ps, c :: cs => charPatMatches p c && keywordMatchesAt ps cs

/-- A `\b` word boundary next to a word character inside the match: the
adjacent outside character must be absent (text edge) or a non-word
character.  (Every keyword starts and ends with a word character, so this is
exactly the `\b` semantics for these patterns.) -/
def boundaryOk : Option Char → Bool
  | none => true
  | some c => !(isWordChar c)

/-- Number of matches found by the global case-insensitive word-bounded
keyword regex: scan left to right with the previous character at hand; on a
match, resume immediately after it.  Fuel-indexed like `tokenMatchesF`. -/
def countKwMatchesF (kw : List Char) : ℕ → Option Char → List Char → ℕ
  | 0, _, _ => 0
  | _ + 1, _, [] => 0
  | fuel + 1, prev, c :: cs =>
    if kw ≠ [] ∧ boundaryOk prev = true ∧ keywordMatchesAt kw (c :: cs) = true ∧
        boundaryOk ((c :: cs).drop kw.length).head? = true then
      1 + countKwMatchesF kw fuel (((c :: cs).drop (kw.length - 1)).head?)
        ((c :: cs).drop kw.length)
    else
      countKwMatchesF kw fuel (some c) cs

/-- Match count of one keyword over a character list. -/
def countKwMatches (kw : List Char) (prev : Option Char) (l : List Char) : ℕ :=
  countKwMatchesF kw l.length prev l

/-- `content.match(new RegExp(...)).length > 0` count for one keyword, on the
whole content (no previous character at the start of the text). -/
def keywordScore (content : String) (kw : String) : ℕ :=
  countKwMatches kw.toList none content.toList

/-- All matches of `/\b[A-Z][a-z]+ [A-Z][a-z]+\b/g`: at a position preceded
by a non-word character (or the text start), an uppercase letter, a maximal
non-empty lowercase run, a space, an uppercase letter, a maximal non-empty
lowercase run, followed by a non-word character (or the text end).  The two
`[a-z]+` are effectively possessive here: shortening either run leaves a
lowercase letter adjacent, which can satisfy neither the ` ` nor the `\b`
that follows, so maximal-run matching is exact.  The scan resumes after a
match. -/
def phraseMatchesF : ℕ → Option Char → List Char → List (List Char)
  | 0, _, _ => []
  | _ + 1, _, [] => []
  | fuel + 1, prev, c1 :: t1 =>
    if boundaryOk prev = true ∧ c1.isUpper = true ∧ t1.takeWhile Char.isLower ≠ [] then
      match t1.dropWhile Char.isLower with
      | ' ' :: c2 :: t4 =>
        if c2.isUpper = true ∧ t4.takeWhile Char.isLower ≠ [] ∧
            boundaryOk (t4.dropWhile Char.isLower).head? = true then
          (c1 :: t1.takeWhile Char.isLower ++ ' ' :: c2 :: t4.takeWhile Char.isLower) ::
            phraseMatchesF fuel (t4.takeWhile Char.isLower).getLast? (t4.dropWhile Char.isLower)
        else
          phraseMatchesF fuel (some c1) t1
      | _ => phraseMatchesF fuel (some c1) t1
    else
      phraseMatchesF fuel (some c1) t1

/-- All matches of `/\b[A-Z][a-z]+ [A-Z][a-z]+\b/g` over a character list. -/
def phraseMatches (prev : Option Char) (l : List Char) : List (List Char) :=
  phraseMatchesF l.length prev l

/-- JS `String.prototype.toLowerCase` on the (ASCII) strings in scope. -/
def lowerStr (cs : List Char) : String :=
  String.mk (cs.map Char.toLower)

/-- `a.startsWith(p)` for a single-character prefix `p`. -/
def jsStartsWithChar (s : String) (p : Char) : Bool :=
  s.toList.head? = some p

/-- The `trends` array of `extractTrendingTopics` just before
deduplication: all hashtag matches lower-cased, then the first five mention
matches lower-cased, then (in vocabulary order) the keywords with at least
one match, then the first ten phrase matches lower-cased. -/
def extractedTrendsList (content : String) : List String :=
  let cs := content.toList
  let hashtags := (tokenMatches '#' cs).map lowerStr
  let mentions := ((tokenMatches '@' cs).take 5).map lowerStr
  let keywords := trendingKeywords.filter fun kw => 0 < keywordScore content kw
  let phrases := ((phraseMatches none cs).take 10).map lowerStr
  hashtags ++ mentions ++ keywords ++ phrases

/-- `[...new Set(trends)]`: deduplication keeping the first occurrence of
each element, in insertion order. -/
def dedupFirstF : ℕ → List String → List String
  | 0, _ => []
  | _ + 1, [] => []
  | fuel + 1, x :: xs => x :: dedupFirstF fuel (xs.filter fun y => y ≠ x)

/-- `[...new Set(trends)]` on a string list. -/
def dedupFirst (l : List String) : List String :=
  dedupFirstF l.length l

/-- The relevance score of the final sort:
`keywordScores[a] || (a.startsWith("#") ? 2 : 1)` — the record has an entry
exactly for the vocabulary keywords with at least one match. -/
def relevanceScore (content : String) (a : String) : ℕ :=
  if a ∈ trendingKeywords ∧ 0 < keywordScore content a then keywordScore content a
  else if jsStartsWithChar a '#' then 2
  else 1

/-- `extractTrendingTopics` (favicon-utils.ts, lines 525-585): collect,
deduplicate, stable-sort by descending relevance score, return the first 15. -/
def extractTrendingTopics (content : String) : List String :=
  let uniqueTrends := dedupFirst (extractedTrendsList content)
  (sortStable
    (fun u s => decide (relevanceScore content s < relevanceScore content u))
    uniqueTrends).take 15

/-! ## Concrete inputs used by witnesses and counterexamples -/

/-- A metrics object with every field absent. -/
def emptyMetrics : Metrics :=
  { likes := none, shares := none, comments := none, retweets := none, views := none }

/-- A rational-scored trend record with a given id, timestamp and stored
overall score (the ranker only reads `timestamp`, `score.overall` and
`category`). -/
def mkStoredTrend (i : String) (ts : Timestamp) (overall : Option ℚ) : RankedTrend ℚ :=
  { id := i, title := "t", content := "c", source := "s", sourceType := .x, url := "u",
    timestamp := ts, metrics := emptyMetrics,
    score := { recency := some 1, popularity := some 1, engagement := some 1, overall := overall },
    tags := [], category := .general }

/-- A real-scored candidate record with a given timestamp and metrics and a
zeroed stored score, as the converters build before scoring. -/
def mkCandidate (ts : Timestamp) (m : Metrics) : RankedTrend ℝ :=
  { id := "id", title := "t", content := "c", source := "s", sourceType := .youtube, url := "u",
    timestamp := ts, metrics := m,
    score := { recency := some 0, popularity := some 0, engagement := some 0, overall := some 0 },
    tags := [], category := .general }

/-- A candidate whose timestamp string is non-empty but unparseable. -/
noncomputable def invalidTsCandidate : RankedTrend ℝ :=
  mkCandidate .invalid emptyMetrics

/-- A candidate whose timestamp string is absent or empty. -/
noncomputable def missingTsCandidate : RankedTrend ℝ :=
  mkCandidate .missing emptyMetrics

/-- A candidate with a timestamp parsing to epoch instant 0 and no metrics. -/
noncomputable def epochCandidate : RankedTrend ℝ :=
  mkCandidate (.valid 0) emptyMetrics

/-- The metrics of the spec scenario: likes 1000, shares 200, comments 50,
views 500000. -/
def scenarioMetrics : Metrics :=
  { likes := some 1000, shares := some 200, comments := some 50,
    retweets := none, views := some 500000 }

/-- The end-to-end scenario candidate of the spec: `timestamp = now`,
`metrics = likes 1000, shares 200, comments 50, views 500000`. -/
noncomputable def scenarioCandidate (now : ℚ) : RankedTrend ℝ :=
  mkCandidate (.valid now) scenarioMetrics

/-- A video whose `viewCount` counter is a non-numeric string. -/
def malformedViewsVideo : YouTubeVideo :=
  { id := "v1", snippet := none,
    statistics := some { viewCount := some "abc", likeCount := none, commentCount := none } }

/-- A video with no `statistics` object at all. -/
def noStatsVideo : YouTubeVideo :=
  { id := "v2", snippet := none, statistics := none }

/-- Sixteen distinct hashtags and nothing else. -/
def sixteenHashtags : String :=
  "#a1 #a2 #a3 #a4 #a5 #a6 #a7 #a8 #a9 #a10 #a11 #a12 #a13 #a14 #a15 #a16"

/-- A small social text with one hashtag and one mention. -/
def smallSocialText : String :=
  "#Hello there @world"

/-- Two stored trends with timestamp at the epoch and overall score 1/2. -/
def storedTrendA : RankedTrend ℚ := mkStoredTrend "a" (.valid 0) (some (1/2))

/-- Second stored trend, distinct id. -/
def storedTrendB : RankedTrend ℚ := mkStoredTrend "b" (.valid 0) (some (1/2))

/-- A ranking configuration passing the negative `maxResults = -1`. -/
def negMaxResultsOptions : RankOptions ℚ :=
  { maxResults := some (-1), minScore := none, categories := none, timeWindow := none }

/-! ## Scorer lemmas -/

theorem scorerAgeInHours_isSome (now : ℚ) (ts : Timestamp) (h : ts ≠ .invalid) :
    ∃ a, scorerAgeInHours now ts = some a := by
  cases ts with
  | missing => exact ⟨0, rfl⟩
  | invalid => exact absurd rfl h
  | valid ms => exact ⟨(now - ms) / (1000 * 60 * 60), rfl⟩

theorem totalEngagementOf_nonneg (m : Metrics) (hm : MetricsNonneg m) :
    0 ≤ totalEngagementOf m := by
  obtain ⟨h1, h2, h3, h4, h5⟩ := hm
  have hv : (0 : ℚ) ≤ m.views.getD 0 / 100 := by
    exact div_nonneg h5 (by norm_num)
  unfold totalEngagementOf
  linarith

theorem activeEngagementOf_nonneg (m : Metrics) (hm : MetricsNonneg m) :
    0 ≤ activeEngagementOf m := by
  obtain ⟨h1, h2, h3, h4, h5⟩ := hm
  unfold activeEngagementOf
  linarith

theorem clamp01_bounds (x : ℝ) : 0 ≤ max 0 (min 1 x) ∧ max 0 (min 1 x) ≤ 1 :=
  ⟨le_max_left _ _, max_le (by norm_num) (min_le_left _ _)⟩

theorem popularityOf_bounds (m : Metrics) (hm : MetricsNonneg m) :
    0 ≤ popularityOf m ∧ popularityOf m ≤ 1 := by
  constructor
  · apply le_min (by norm_num)
    apply div_nonneg _ (by norm_num)
    apply Real.logb_nonneg (by norm_num)
    have h := totalEngagementOf_nonneg m hm
    have h2 : (0 : ℝ) ≤ ((totalEngagementOf m : ℚ) : ℝ) := by exact_mod_cast h
    linarith
  · exact min_le_left _ _

theorem engagementOf_bounds (m : Metrics) (hm : MetricsNonneg m) :
    0 ≤ engagementOf m ∧ engagementOf m ≤ 1 := by
  unfold engagementOf
  split_ifs with h
  · refine ⟨le_min (by norm_num) ?_, min_le_left _ _⟩
    have ha : (0 : ℝ) ≤ ((activeEngagementOf m : ℚ) : ℝ) := by
      exact_mod_cast activeEngagementOf_nonneg m hm
    have hi : (0 : ℝ) < ((totalImpressionsOf m : ℚ) : ℝ) := by exact_mod_cast h
    exact mul_nonneg (div_nonneg ha (le_of_lt hi)) (by norm_num)
  · norm_num

theorem clamp01_exp_of_nonpos (x : ℝ) (hx : x ≤ 0) :
    max 0 (min 1 (Real.exp x)) = Real.exp x := by
  have h1 : Real.exp x ≤ 1 := by
    calc Real.exp x ≤ Real.exp 0 := Real.exp_le_exp.mpr hx
    _ = 1 := Real.exp_zero
  rw [min_eq_right h1, max_eq_right (le_of_lt (Real.exp_pos x))]

theorem clamp01_exp_of_nonneg (x : ℝ) (hx : 0 ≤ x) :
    max 0 (min 1 (Real.exp x)) = 1 := by
  have h1 : 1 ≤ Real.exp x := by
    rw [← Real.exp_zero]
    exact Real.exp_le_exp.mpr hx
  rw [min_eq_left h1, max_eq_right (by norm_num)]

theorem exp_neg_one_bounds : (0.367 : ℝ) < Real.exp (-1) ∧ Real.exp (-1) < 0.369 := by
  have h1 := Real.exp_one_gt_d9
  have h2 := Real.exp_one_lt_d9
  have hpos : (0 : ℝ) < Real.exp 1 := Real.exp_pos 1
  rw [Real.exp_neg]
  constructor
  · rw [inv_eq_one_div, lt_div_iff₀ hpos]
    nlinarith [h2]
  · rw [inv_eq_one_div, div_lt_iff₀ hpos]
    nlinarith [h1]

theorem exp_neg_two_bounds : (0.134 : ℝ) < Real.exp (-2) ∧ Real.exp (-2) < 0.136 := by
  have h1 := Real.exp_one_gt_d9
  have h2 := Real.exp_one_lt_d9
  have hpos : (0 : ℝ) < Real.exp 1 := Real.exp_pos 1
  have he2 : Real.exp (-2 : ℝ) = (Real.exp 1 * Real.exp 1)⁻¹ := by
    rw [Real.exp_neg, ← Real.exp_add]
    norm_num
  rw [he2]
  have hp2 : (0 : ℝ) < Real.exp 1 * Real.exp 1 := mul_pos hpos hpos
  constructor
  · rw [inv_eq_one_div, lt_div_iff₀ hp2]
    nlinarith [h1, h2, hpos]
  · rw [inv_eq_one_div, div_lt_iff₀ hp2]
    nlinarith [h1, h2, hpos]

/-- C2 (amended): for every candidate whose timestamp is parseable or
missing (not a non-empty unparseable string) and whose metrics are
non-negative where present, the four values computed by
`calculateTrendScore` all lie in `[0, 1]`. -/
theorem claim2_subscores_unit_interval (now : ℚ) (t : RankedTrend ℝ)
    (hts : t.timestamp ≠ .invalid) (hm : MetricsNonneg t.metrics) :
    ∃ r p e o,
      calculateTrendScore now t =
        { recency := some r, popularity := some p, engagement := some e, overall := some o } ∧
      0 ≤ r ∧ r ≤ 1 ∧ 0 ≤ p ∧ p ≤ 1 ∧ 0 ≤ e ∧ e ≤ 1 ∧ 0 ≤ o ∧ o ≤ 1 := by
  obtain ⟨a, ha⟩ := scorerAgeInHours_isSome now t.timestamp hts
  have hrec : recencyOf now t.timestamp = some (max 0 (min 1 (Real.exp (-(a : ℝ) / 24)))) := by
    rw [recencyOf, ha]
    rfl
  obtain ⟨hr0, hr1⟩ := clamp01_bounds (Real.exp (-(a : ℝ) / 24))
  obtain ⟨hp0, hp1⟩ := popularityOf_bounds t.metrics hm
  obtain ⟨he0, he1⟩ := engagementOf_bounds t.metrics hm
  refine ⟨max 0 (min 1 (Real.exp (-(a : ℝ) / 24))), popularityOf t.metrics,
    engagementOf t.metrics,
    max 0 (min 1 (Real.exp (-(a : ℝ) / 24))) * 0.4 +
      popularityOf t.metrics * 0.4 + engagementOf t.metrics * 0.2, ?_,
    hr0, hr1, hp0, hp1, he0, he1, ?_, ?_⟩
  · rw [calculateTrendScore]
    rw [hrec]
    rfl
  · linarith
  · linarith

/-- C2 witness: a concrete candidate satisfying the hypotheses. -/
theorem claim2_subscores_unit_interval_witness :
    epochCandidate.timestamp ≠ Timestamp.invalid ∧ MetricsNonneg epochCandidate.metrics ∧
    (∃ r p e o,
      calculateTrendScore 0 epochCandidate =
        { recency := some r, popularity := some p, engagement := some e, overall := some o } ∧
      0 ≤ r ∧ r ≤ 1 ∧ 0 ≤ p ∧ p ≤ 1 ∧ 0 ≤ e ∧ e ≤ 1 ∧ 0 ≤ o ∧ o ≤ 1) :=
  ⟨by decide, by decide, claim2_subscores_unit_interval 0 epochCandidate (by decide) (by decide)⟩

/-- C2 counterexample: the claim as stated fails on a candidate whose
timestamp is a non-empty unparseable string — its recency is `NaN`
(modelled `none`), which lies in no interval. -/
theorem claim2_counterexample :
    (calculateTrendScore 0 invalidTsCandidate).recency = none ∧
    ¬ ∃ x : ℝ, (calculateTrendScore 0 invalidTsCandidate).recency = some x ∧ 0 ≤ x ∧ x ≤ 1 := by
  constructor
  · rfl
  · rintro ⟨x, hx, -⟩
    simp only [calculateTrendScore, recencyOf, scorerAgeInHours, invalidTsCandidate,
      mkCandidate, Option.map_none] at hx
    cases hx

/-- C3: for every candidate, recency is exactly `exp(-ageHours/24)` clamped
to `[0,1]` (with `NaN` ages propagating to `NaN`, which the `Option.map`
formulation captures); for a candidate with a parseable timestamp
`ageHours = (now - ms)/(1000*60*60)`, a future timestamp gives recency 1,
`timestamp = now` gives recency 1, a 24-hour-old candidate gives
`e⁻¹ ∈ (0.367, 0.369)` and a 48-hour-old one `e⁻² ∈ (0.134, 0.136)`. -/
theorem claim3_recency_exponential_decay (now : ℚ) (t : RankedTrend ℝ) (ms : ℚ)
    (hts : t.timestamp = .valid ms) :
    (∀ u : RankedTrend ℝ, (calculateTrendScore now u).recency =
        (scorerAgeInHours now u.timestamp).map
          (fun a => max 0 (min 1 (Real.exp (-(a : ℝ) / 24))))) ∧
    (calculateTrendScore now t).recency =
        some (max 0 (min 1 (Real.exp (-(((now - ms) / (1000 * 60 * 60) : ℚ) : ℝ) / 24)))) ∧
      (now < ms → (calculateTrendScore now t).recency = some 1) ∧
      (ms = now → (calculateTrendScore now t).recency = some 1) ∧
      (ms = now - 24 * (1000 * 60 * 60) →
        (calculateTrendScore now t).recency = some (Real.exp (-1)) ∧
          (0.367 : ℝ) < Real.exp (-1) ∧ Real.exp (-1) < (0.369 : ℝ)) ∧
      (ms = now - 48 * (1000 * 60 * 60) →
        (calculateTrendScore now t).recency = some (Real.exp (-2)) ∧
          (0.134 : ℝ) < Real.exp (-2) ∧ Real.exp (-2) < (0.136 : ℝ)) := by
  have base : (calculateTrendScore now t).recency =
      some (max 0 (min 1 (Real.exp (-(((now - ms) / (1000 * 60 * 60) : ℚ) : ℝ) / 24)))) := by
    show recencyOf now t.timestamp = _
    rw [hts]
    rfl
  refine ⟨fun u => rfl, base, ?_, ?_, ?_, ?_⟩
  · intro hfut
    rw [base]
    have hage : ((((now - ms) / (1000 * 60 * 60) : ℚ) : ℝ)) < 0 := by
      have : ((now - ms) / (1000 * 60 * 60) : ℚ) < 0 := by
        apply div_neg_of_neg_of_pos (by linarith) (by norm_num)
      exact_mod_cast this
    rw [clamp01_exp_of_nonneg _ (by linarith)]
  · intro hnow
    subst hnow
    rw [base]
    norm_num
  · intro h24
    have hage : ((now - ms) / (1000 * 60 * 60) : ℚ) = 24 := by
      rw [h24]; norm_num
    rw [base, hage]
    have : (((24 : ℚ) : ℝ)) = 24 := by norm_num
    rw [this]
    have harg : -(24 : ℝ) / 24 = -1 := by norm_num
    rw [harg, clamp01_exp_of_nonpos _ (by norm_num)]
    exact ⟨rfl, exp_neg_one_bounds.1, exp_neg_one_bounds.2⟩
  · intro h48
    have hage : ((now - ms) / (1000 * 60 * 60) : ℚ) = 48 := by
      rw [h48]; norm_num
    rw [base, hage]
    have : (((48 : ℚ) : ℝ)) = 48 := by norm_num
    rw [this]
    have harg : -(48 : ℝ) / 24 = -2 := by norm_num
    rw [harg, clamp01_exp_of_nonpos _ (by norm_num)]
    exact ⟨rfl, exp_neg_two_bounds.1, exp_neg_two_bounds.2⟩

/-- C3 witness: the epoch candidate at `now = 0` has recency exactly 1. -/
theorem claim3_recency_exponential_decay_witness :
    epochCandidate.timestamp = Timestamp.valid 0 ∧
    (calculateTrendScore 0 epochCandidate).recency = some 1 :=
  ⟨rfl, (claim3_recency_exponential_decay 0 epochCandidate 0 rfl).2.2.2.1 rfl⟩

/-- C5: the engagement sub-score is
`min(1, (comments + shares + retweets) / max(views, likes) * 100)` when
`max(views, likes) > 0` and exactly `0` when `max(views, likes) = 0` — the
guarded branch never divides by zero. -/
theorem claim5_engagement_division_guard (now : ℚ) (t : RankedTrend ℝ) :
    (0 < totalImpressionsOf t.metrics →
      (calculateTrendScore now t).engagement =
        some (min 1 ((activeEngagementOf t.metrics : ℝ) /
          (totalImpressionsOf t.metrics : ℝ) * 100))) ∧
    (totalImpressionsOf t.metrics = 0 →
      (calculateTrendScore now t).engagement = some 0) := by
  constructor
  · intro h
    show some (engagementOf t.metrics) = _
    rw [engagementOf, if_pos h]
  · intro h
    show some (engagementOf t.metrics) = _
    rw [engagementOf, if_neg]
    rw [h]
    norm_num

/-- C5 witness: a candidate with no views and no likes takes the guarded
zero branch. -/
theorem claim5_engagement_division_guard_witness :
    totalImpressionsOf epochCandidate.metrics = 0 ∧
    (calculateTrendScore 0 epochCandidate).engagement = some 0 :=
  ⟨by decide, (claim5_engagement_division_guard 0 epochCandidate).2 (by decide)⟩

/-- C6 (amended): a candidate whose timestamp is absent or the empty string
(falsy) is scored as if its timestamp were `now`, so its recency is 1; but a
candidate whose timestamp is a non-empty string that does not parse gets a
`NaN` recency (not 1).  No exception is raised in either case (the model is
total). -/
theorem claim6_timestamp_fallback (now : ℚ) (t : RankedTrend ℝ) :
    (t.timestamp = .missing → (calculateTrendScore now t).recency = some 1) ∧
    (t.timestamp = .invalid → (calculateTrendScore now t).recency = none) := by
  constructor
  · intro h
    show recencyOf now t.timestamp = _
    rw [h, recencyOf]
    show some _ = _
    norm_num
  · intro h
    show recencyOf now t.timestamp = _
    rw [h, recencyOf]
    rfl

/-- C6 witness: a concrete candidate with a missing timestamp has
recency 1. -/
theorem claim6_timestamp_fallback_witness :
    missingTsCandidate.timestamp = Timestamp.missing ∧
    (calculateTrendScore 0 missingTsCandidate).recency = some 1 :=
  ⟨rfl, (claim6_timestamp_fallback 0 missingTsCandidate).1 rfl⟩

/-- C6 counterexample: the claim as stated fails on a candidate whose
timestamp is non-empty but unparseable — the scorer yields a `NaN` recency,
not 1. -/
theorem claim6_counterexample :
    (calculateTrendScore 0 invalidTsCandidate).recency = none ∧
    (calculateTrendScore 0 invalidTsCandidate).recency ≠ some 1 := by
  refine ⟨rfl, ?_⟩
  intro h
  rw [show (calculateTrendScore 0 invalidTsCandidate).recency = none from rfl] at h
  cases h

/-- C10: for a candidate with non-negative (or absent) metrics and a
parseable timestamp, `overall ≥ 0.4 * recency`; when the timestamp equals
`now` this gives `overall ≥ 0.4`, so the candidate passes the ranker score
filter at the default `minScore = 0.1`. -/
theorem claim10_fresh_candidate_passes_filter (now : ℚ) (t : RankedTrend ℝ) (ms : ℚ)
    (hts : t.timestamp = .valid ms) (hm : MetricsNonneg t.metrics) :
    ∃ r o, (calculateTrendScore now t).recency = some r ∧
      (calculateTrendScore now t).overall = some o ∧ 0.4 * r ≤ o ∧
      (ms = now → 0.4 ≤ o ∧
        scorePasses (0.1 : ℝ) { t with score := calculateTrendScore now t } = true) := by
  have base : (calculateTrendScore now t).recency =
      some (max 0 (min 1 (Real.exp (-(((now - ms) / (1000 * 60 * 60) : ℚ) : ℝ) / 24)))) := by
    show recencyOf now t.timestamp = _
    rw [hts]
    rfl
  set r := max 0 (min 1 (Real.exp (-(((now - ms) / (1000 * 60 * 60) : ℚ) : ℝ) / 24))) with hrdef
  have hover : (calculateTrendScore now t).overall =
      some (r * 0.4 + popularityOf t.metrics * 0.4 + engagementOf t.metrics * 0.2) := by
    show (recencyOf now t.timestamp).map _ = _
    have : recencyOf now t.timestamp = some r := base
    rw [this]
    rfl
  obtain ⟨hp0, hp1⟩ := popularityOf_bounds t.metrics hm
  obtain ⟨he0, he1⟩ := engagementOf_bounds t.metrics hm
  refine ⟨r, _, base, hover, by linarith, ?_⟩
  intro hnow
  have hr1 : r = 1 := by
    rw [hrdef]
    subst hnow
    norm_num
  constructor
  · rw [hr1]; linarith
  · have : ({ t with score := calculateTrendScore now t } :
        RankedTrend ℝ).score.overall =
        some (r * 0.4 + popularityOf t.metrics * 0.4 + engagementOf t.metrics * 0.2) := hover
    rw [scorePasses, this]
    rw [decide_eq_true_eq]
    rw [hr1]
    linarith

/-- C10 witness: the epoch candidate at `now = 0`. -/
theorem claim10_fresh_candidate_passes_filter_witness :
    MetricsNonneg epochCandidate.metrics ∧
    (∃ r o, (calculateTrendScore 0 epochCandidate).recency = some r ∧
      (calculateTrendScore 0 epochCandidate).overall = some o ∧ 0.4 * r ≤ o ∧
      ((0 : ℚ) = 0 → 0.4 ≤ o ∧
        scorePasses (0.1 : ℝ)
          { epochCandidate with score := calculateTrendScore 0 epochCandidate } = true)) :=
  ⟨by decide, claim10_fresh_candidate_passes_filter 0 epochCandidate 0 rfl (by decide)⟩

theorem rpow_474_125_lt : ((10 : ℝ) ^ ((474 : ℝ) / 125)) < 6251 := by
  have hnat : (10 : ℕ) ^ 474 < 6251 ^ 125 := by norm_num
  apply lt_of_pow_lt_pow_left₀ 125 (by norm_num : (0 : ℝ) ≤ 6251)
  have key : ((10 : ℝ) ^ ((474 : ℝ) / 125)) ^ (125 : ℕ) = (10 : ℝ) ^ (474 : ℕ) := by
    rw [← Real.rpow_natCast ((10 : ℝ) ^ ((474 : ℝ) / 125)) 125,
      ← Real.rpow_mul (by norm_num)]
    rw [show ((474 : ℝ) / 125) * (125 : ℕ) = ((474 : ℕ) : ℝ) by push_cast; ring]
    rw [Real.rpow_natCast]
  rw [key]
  exact_mod_cast hnat

theorem lt_rpow_963_250 : (6251 : ℝ) < (10 : ℝ) ^ ((963 : ℝ) / 250) := by
  have hnat : (6251 : ℕ) ^ 250 < 10 ^ 963 := by norm_num
  have hr : (0 : ℝ) < (10 : ℝ) ^ ((963 : ℝ) / 250) :=
    Real.rpow_pos_of_pos (by norm_num) _
  apply lt_of_pow_lt_pow_left₀ 250 (le_of_lt hr)
  have key : ((10 : ℝ) ^ ((963 : ℝ) / 250)) ^ (250 : ℕ) = (10 : ℝ) ^ (963 : ℕ) := by
    rw [← Real.rpow_natCast ((10 : ℝ) ^ ((963 : ℝ) / 250)) 250,
      ← Real.rpow_mul (by norm_num)]
    rw [show ((963 : ℝ) / 250) * (250 : ℕ) = ((963 : ℕ) : ℝ) by push_cast; ring]
    rw [Real.rpow_natCast]
  rw [key]
  exact_mod_cast hnat

theorem logb_6251_bounds :
    (474 : ℝ) / 125 < Real.logb 10 6251 ∧ Real.logb 10 6251 < (963 : ℝ) / 250 :=
  ⟨(Real.lt_logb_iff_rpow_lt (by norm_num) (by norm_num)).2 rpow_474_125_lt,
   (Real.logb_lt_iff_lt_rpow (by norm_num) (by norm_num)).2 lt_rpow_963_250⟩

theorem recencyOf_valid (now ms : ℚ) :
    recencyOf now (.valid ms) =
      some (max 0 (min 1 (Real.exp (-(((now - ms) / (1000 * 60 * 60) : ℚ) : ℝ) / 24)))) :=
  rfl

theorem recencyOf_same (now : ℚ) : recencyOf now (.valid now) = some 1 := by
  rw [recencyOf_valid]
  norm_num

/-- C4: the popularity sub-score is
`min(1, log10(totalEngagement + 1) / 6)` with
`totalEngagement = likes + shares + comments + retweets + views/100`
(absent metrics reading as 0); on the spec scenario candidate
(`timestamp = now`, likes 1000, shares 200, comments 50, views 500000) the
total engagement is 6250, recency is 1, engagement is 0.05 exactly,
popularity is `log10(6251)/6 ≈ 0.637` (within 0.005) and overall
`≈ 0.665` (within 0.005). -/
theorem claim4_popularity_formula (now : ℚ) (t : RankedTrend ℝ) :
    (calculateTrendScore now t).popularity =
        some (min 1 (Real.logb 10 ((totalEngagementOf t.metrics : ℝ) + 1) / 6)) ∧
      totalEngagementOf (scenarioCandidate now).metrics = 6250 ∧
      (calculateTrendScore now (scenarioCandidate now)).recency = some 1 ∧
      (calculateTrendScore now (scenarioCandidate now)).engagement = some 0.05 ∧
      ∃ p o, (calculateTrendScore now (scenarioCandidate now)).popularity = some p ∧
        (calculateTrendScore now (scenarioCandidate now)).overall = some o ∧
        p = Real.logb 10 6251 / 6 ∧ |p - 0.637| < 0.005 ∧
        o = 1 * 0.4 + p * 0.4 + 0.05 * 0.2 ∧ |o - 0.665| < 0.005 := by
  have hmet : (scenarioCandidate now).metrics = scenarioMetrics := rfl
  have htot : totalEngagementOf (scenarioCandidate now).metrics = 6250 := by
    rw [hmet]
    show (some (1000 : ℚ)).getD 0 + (some (200 : ℚ)).getD 0 + (some (50 : ℚ)).getD 0 +
      (none : Option ℚ).getD 0 + (some (500000 : ℚ)).getD 0 / 100 = 6250
    simp only [Option.getD_some, Option.getD_none]
    norm_num
  have hplo : (0.632 : ℝ) < Real.logb 10 6251 / 6 := by
    have := logb_6251_bounds.1
    linarith
  have hphi : Real.logb 10 6251 / 6 < (0.642 : ℝ) := by
    have := logb_6251_bounds.2
    linarith
  have hpop : popularityOf (scenarioCandidate now).metrics = Real.logb 10 6251 / 6 := by
    rw [popularityOf, htot]
    rw [show (((6250 : ℚ) : ℝ) + 1) = 6251 by norm_num]
    exact min_eq_right (by linarith)
  have hact : activeEngagementOf scenarioMetrics = 250 := by
    show (some (50 : ℚ)).getD 0 + (some (200 : ℚ)).getD 0 + (none : Option ℚ).getD 0 = 250
    simp only [Option.getD_some, Option.getD_none]
    norm_num
  have himp : totalImpressionsOf scenarioMetrics = 500000 := by
    show max ((some (500000 : ℚ)).getD 0) ((some (1000 : ℚ)).getD 0) = 500000
    simp only [Option.getD_some]
    exact max_eq_left (by norm_num)
  have heng : engagementOf (scenarioCandidate now).metrics = 0.05 := by
    rw [engagementOf, hmet, if_pos (by rw [himp]; norm_num)]
    rw [hact, himp]
    norm_num
  have hrec : (calculateTrendScore now (scenarioCandidate now)).recency = some 1 :=
    recencyOf_same now
  refine ⟨rfl, htot, hrec, ?_, ?_⟩
  · show some (engagementOf (scenarioCandidate now).metrics) = _
    rw [heng]
  · refine ⟨Real.logb 10 6251 / 6, 1 * 0.4 + (Real.logb 10 6251 / 6) * 0.4 + 0.05 * 0.2,
      ?_, ?_, rfl, ?_, rfl, ?_⟩
    · show some (popularityOf (scenarioCandidate now).metrics) = _
      rw [hpop]
    · have h1 : (calculateTrendScore now (scenarioCandidate now)).overall =
          (recencyOf now (scenarioCandidate now).timestamp).map
            (fun r => r * 0.4 + popularityOf (scenarioCandidate now).metrics * 0.4 +
              engagementOf (scenarioCandidate now).metrics * 0.2) := rfl
      rw [h1, show (scenarioCandidate now).timestamp = .valid now from rfl, recencyOf_same]
      simp only [Option.map_some']
      rw [hpop, heng]
    · rw [abs_lt]
      constructor <;> linarith
    · rw [abs_lt]
      constructor <;> linarith

/-! ## Ranker lemmas -/

theorem insertStable_perm (gt : β → β → Bool) (s : β) (l : List β) :
    List.Perm (insertStable gt s l) (s :: l) := by
  induction l with
  | nil => exact List.Perm.refl _
  | cons u rest ih =>
    rw [insertStable]
    split_ifs with h
    · exact (ih.cons u).trans (List.Perm.swap s u rest)
    · exact List.Perm.refl _

theorem sortStable_perm (gt : β → β → Bool) (l : List β) :
    List.Perm (sortStable gt l) l := by
  induction l with
  | nil => exact List.Perm.refl _
  | cons s rest ih =>
    rw [sortStable]
    exact (insertStable_perm gt s _).trans (ih.cons s)

theorem insertStable_pairwise [LinearOrder α] (s : RankedTrend α) (l : List (RankedTrend α))
    (hs : ∃ v, s.score.overall = some v)
    (hl : ∀ x ∈ l, ∃ v, x.score.overall = some v)
    (hp : l.Pairwise fun x y => ∀ vx vy,
      x.score.overall = some vx → y.score.overall = some vy → vy ≤ vx) :
    (insertStable (fun x y => overallGt x.score.overall y.score.overall) s l).Pairwise
      fun x y => ∀ vx vy,
        x.score.overall = some vx → y.score.overall = some vy → vy ≤ vx := by
  induction l with
  | nil => exact List.pairwise_singleton _ _
  | cons u rest ih =>
    obtain ⟨vs, hvs⟩ := hs
    obtain ⟨vu, hvu⟩ := hl u (List.mem_cons_self u rest)
    obtain ⟨hu_rest, hp_rest⟩ := List.pairwise_cons.1 hp
    rw [insertStable]
    split_ifs with hgt
    · have hvsu : vs < vu := by
        rw [hvu, hvs] at hgt
        simp only [overallGt, decide_eq_true_eq] at hgt
        exact hgt
      apply List.pairwise_cons.2
      refine ⟨?_, ih (fun x hx => hl x (List.mem_cons_of_mem u hx)) hp_rest⟩
      intro y hy
      have hy2 : y ∈ s :: rest := (insertStable_perm _ s rest).subset hy
      intro vx vy hx hyv
      have hvx : vx = vu := by
        rw [hvu] at hx
        exact (Option.some_injective _ hx).symm
      rcases List.mem_cons.1 hy2 with rfl | hmem
      · have : vy = vs := by
          rw [hvs] at hyv
          exact (Option.some_injective _ hyv).symm
        rw [hvx, this]
        exact le_of_lt hvsu
      · rw [hvx]
        exact hu_rest y hmem vu vy hvu hyv
    · have hvus : vu ≤ vs := by
        rw [hvu, hvs] at hgt
        simp only [overallGt, decide_eq_true_eq] at hgt
        exact not_lt.1 hgt
      apply List.pairwise_cons.2
      refine ⟨?_, hp⟩
      intro y hy vx vy hx hyv
      have hvx : vx = vs := by
        rw [hvs] at hx
        exact (Option.some_injective _ hx).symm
      rcases List.mem_cons.1 hy with rfl | hmem
      · have : vy = vu := by
          rw [hvu] at hyv
          exact (Option.some_injective _ hyv).symm
        rw [hvx, this]
        exact hvus
      · have := hu_rest y hmem vu vy hvu hyv
        rw [hvx]
        exact le_trans this hvus

theorem sortStable_pairwise [LinearOrder α] (l : List (RankedTrend α))
    (hl : ∀ x ∈ l, ∃ v, x.score.overall = some v) :
    (sortStable (fun x y => overallGt x.score.overall y.score.overall) l).Pairwise
      fun x y => ∀ vx vy,
        x.score.overall = some vx → y.score.overall = some vy → vy ≤ vx := by
  induction l with
  | nil => exact List.Pairwise.nil
  | cons s rest ih =>
    rw [sortStable]
    apply insertStable_pairwise
    · exact hl s (List.mem_cons_self s rest)
    · intro x hx
      exact hl x (List.mem_cons_of_mem s ((sortStable_perm _ rest).subset hx))
    · exact ih fun x hx => hl x (List.mem_cons_of_mem s hx)

theorem jsSliceTo_sublist (e : ℤ) (l : List β) : List.Sublist (jsSliceTo e l) l := by
  rw [jsSliceTo]
  split_ifs <;> exact List.take_sublist _ _

theorem jsSliceTo_length_le (e : ℤ) (he : 0 ≤ e) (l : List β) :
    ((jsSliceTo e l).length : ℤ) ≤ e := by
  rw [jsSliceTo, if_neg (not_lt.2 he)]
  have h1 : (l.take e.toNat).length ≤ e.toNat := by
    rw [List.length_take]
    exact min_le_left _ _
  calc ((l.take e.toNat).length : ℤ) ≤ (e.toNat : ℤ) := by exact_mod_cast h1
    _ = e := Int.toNat_of_nonneg he

theorem combineAndRankTrends_eq [LinearOrderedField α] (now : ℚ)
    (u g : List (RankedTrend α)) (o : RankOptions α) :
    combineAndRankTrends now u g o =
      jsSliceTo (o.maxResults.getD 50)
        (sortStable (fun x y => overallGt x.score.overall y.score.overall)
          ((if (o.categories.getD []).length > 0 then
              ((u ++ g).filter (agePasses now (o.timeWindow.getD 24))).filter
                (categoryPasses (o.categories.getD []))
            else
              (u ++ g).filter (agePasses now (o.timeWindow.getD 24))).filter
            (scorePasses (o.minScore.getD 0.1)))) := rfl

theorem agePasses_iff (now tw : ℚ) (t : RankedTrend α) :
    agePasses now tw t = true ↔
      ∃ a, rankerAgeInHours now t.timestamp = some a ∧ a ≤ tw := by
  rw [agePasses]
  cases h : rankerAgeInHours now t.timestamp with
  | none => simp
  | some a => simp [decide_eq_true_eq]

theorem scorePasses_iff [LinearOrder α] (ms : α) (t : RankedTrend α) :
    scorePasses ms t = true ↔ ∃ v, t.score.overall = some v ∧ ms ≤ v := by
  rw [scorePasses]
  cases h : t.score.overall with
  | none => simp
  | some v => simp [decide_eq_true_eq]

theorem categoryPasses_iff (cats : List String) (t : RankedTrend α) :
    categoryPasses cats t = true ↔ t.category.jsName ∈ cats := by
  rw [categoryPasses]
  exact List.elem_iff

/-- C1 (amended): every output candidate of `combineAndRankTrends` has age at
most `timeWindow` hours and stored overall score at least `minScore`; when
the `categories` filter is non-empty every output candidate's category is in
it; the output is sorted non-increasing by overall score; when `maxResults`
is non-negative the output length is at most `maxResults` (a negative
`maxResults` reaches `Array.slice(0, maxResults)`, which counts from the end
of the array and can return more than `maxResults` elements); omitted
options default to `maxResults = 50`, `minScore = 0.1`, `categories = []`,
`timeWindow = 24`. -/
theorem claim1_ranker_contract {α : Type} [LinearOrderedField α] (now : ℚ)
    (u g : List (RankedTrend α)) (o : RankOptions α) :
    (∀ t ∈ combineAndRankTrends now u g o,
        ∃ a, rankerAgeInHours now t.timestamp = some a ∧ a ≤ o.timeWindow.getD 24) ∧
    (∀ t ∈ combineAndRankTrends now u g o,
        ∃ v, t.score.overall = some v ∧ o.minScore.getD 0.1 ≤ v) ∧
    (o.categories.getD [] ≠ [] → ∀ t ∈ combineAndRankTrends now u g o,
        t.category.jsName ∈ o.categories.getD []) ∧
    (combineAndRankTrends now u g o).Pairwise
      (fun x y => ∀ vx vy,
        x.score.overall = some vx → y.score.overall = some vy → vy ≤ vx) ∧
    (0 ≤ o.maxResults.getD 50 →
        ((combineAndRankTrends now u g o).length : ℤ) ≤ o.maxResults.getD 50) ∧
    combineAndRankTrends now u g
        { maxResults := none, minScore := none, categories := none, timeWindow := none } =
      combineAndRankTrends now u g
        { maxResults := some 50, minScore := some 0.1, categories := some [],
          timeWindow := some 24 } := by
  have hsf : ∀ t ∈ combineAndRankTrends now u g o,
      t ∈ (if (o.categories.getD []).length > 0 then
          ((u ++ g).filter (agePasses now (o.timeWindow.getD 24))).filter
            (categoryPasses (o.categories.getD []))
        else
          (u ++ g).filter (agePasses now (o.timeWindow.getD 24))).filter
        (scorePasses (o.minScore.getD 0.1)) := by
    intro t ht
    rw [combineAndRankTrends_eq] at ht
    exact (sortStable_perm _ _).subset ((jsSliceTo_sublist _ _).mem ht)
  have hf : ∀ t ∈ combineAndRankTrends now u g o,
      t ∈ (u ++ g).filter (agePasses now (o.timeWindow.getD 24)) := by
    intro t ht
    have h1 := (List.mem_filter.1 (hsf t ht)).1
    by_cases hc : (o.categories.getD []).length > 0
    · rw [if_pos hc] at h1
      exact (List.mem_filter.1 h1).1
    · rw [if_neg hc] at h1
      exact h1
  refine ⟨?_, ?_, ?_, ?_, ?_, rfl⟩
  · intro t ht
    exact (agePasses_iff now _ t).1 (List.mem_filter.1 (hf t ht)).2
  · intro t ht
    exact (scorePasses_iff _ t).1 (List.mem_filter.1 (hsf t ht)).2
  · intro hne t ht
    have hc : (o.categories.getD []).length > 0 := List.length_pos.2 hne
    have h1 := (List.mem_filter.1 (hsf t ht)).1
    rw [if_pos hc] at h1
    exact (categoryPasses_iff _ t).1 (List.mem_filter.1 h1).2
  · rw [combineAndRankTrends_eq]
    apply List.Pairwise.sublist (jsSliceTo_sublist _ _)
    apply sortStable_pairwise
    intro x hx
    obtain ⟨v, hv, -⟩ := (scorePasses_iff _ x).1 (List.mem_filter.1 hx).2
    exact ⟨v, hv⟩
  · intro hmr
    rw [combineAndRankTrends_eq]
    exact jsSliceTo_length_le _ hmr _

/-- C1 witness: a single passing trend under the default configuration. -/
theorem claim1_ranker_contract_witness :
    ((0 : ℤ) ≤ 50) ∧
    (((combineAndRankTrends 0 [storedTrendA] []
        { maxResults := none, minScore := none, categories := none,
          timeWindow := none } : List (RankedTrend ℚ)).length : ℤ) ≤ 50) :=
  ⟨by norm_num,
   (claim1_ranker_contract 0 [storedTrendA] []
     { maxResults := none, minScore := none, categories := none,
       timeWindow := none }).2.2.2.2.1 (by norm_num)⟩

/-- C1 counterexample: with `maxResults = -1` and two passing trends the
output has length 1, which exceeds `maxResults` — the claim's length bound
fails for a negative `maxResults` configuration. -/
theorem claim1_counterexample :
    ¬ (((combineAndRankTrends 0 [storedTrendA, storedTrendB] []
        negMaxResultsOptions).length : ℤ) ≤ -1) := by
  have hA : agePasses (0 : ℚ) 24 storedTrendA = true :=
    (agePasses_iff 0 24 storedTrendA).2 ⟨(0 - 0) / (1000 * 60 * 60), rfl, by norm_num⟩
  have hB : agePasses (0 : ℚ) 24 storedTrendB = true :=
    (agePasses_iff 0 24 storedTrendB).2 ⟨(0 - 0) / (1000 * 60 * 60), rfl, by norm_num⟩
  have hSA : scorePasses ((0.1 : ℚ)) storedTrendA = true :=
    (scorePasses_iff 0.1 storedTrendA).2 ⟨1 / 2, rfl, by norm_num⟩
  have hSB : scorePasses ((0.1 : ℚ)) storedTrendB = true :=
    (scorePasses_iff 0.1 storedTrendB).2 ⟨1 / 2, rfl, by norm_num⟩
  have hgt : overallGt storedTrendB.score.overall storedTrendA.score.overall = false := by
    show overallGt (some ((1 : ℚ) / 2)) (some (1 / 2)) = false
    simp [overallGt]
  have hout : combineAndRankTrends 0 [storedTrendA, storedTrendB] [] negMaxResultsOptions
      = [storedTrendA] := by
    rw [combineAndRankTrends_eq]
    simp only [negMaxResultsOptions, Option.getD_none, Option.getD_some, List.append_nil,
      List.length_nil, gt_iff_lt, lt_self_iff_false, if_false]
    rw [show ([storedTrendA, storedTrendB].filter (agePasses (0 : ℚ) 24)) =
        [storedTrendA, storedTrendB] from by simp [hA, hB]]
    rw [show ([storedTrendA, storedTrendB].filter (scorePasses ((0.1 : ℚ)))) =
        [storedTrendA, storedTrendB] from by simp [hSA, hSB]]
    rw [show sortStable (fun x y => overallGt x.score.overall y.score.overall)
        [storedTrendA, storedTrendB] = [storedTrendA, storedTrendB] from by
      simp [sortStable, insertStable, hgt]]
    rw [jsSliceTo]
    norm_num
  rw [hout]
  norm_num

/-- C9: `combineAndRankTrends` is pure selection — its output is a
sub-permutation of the concatenation of the two input lists, so every output
element is one of the input records, fields untouched; in this pure model
the inputs themselves cannot be mutated. -/
theorem claim9_ranker_selects_from_inputs {α : Type} [LinearOrderedField α] (now : ℚ)
    (u g : List (RankedTrend α)) (o : RankOptions α) :
    List.Subperm (combineAndRankTrends now u g o) (u ++ g) := by
  rw [combineAndRankTrends_eq]
  have h1 := jsSliceTo_sublist (o.maxResults.getD 50)
    (sortStable (fun x y => overallGt x.score.overall y.score.overall)
      ((if (o.categories.getD []).length > 0 then
          ((u ++ g).filter (agePasses now (o.timeWindow.getD 24))).filter
            (categoryPasses (o.categories.getD []))
        else
          (u ++ g).filter (agePasses now (o.timeWindow.getD 24))).filter
        (scorePasses (o.minScore.getD 0.1))))
  have h2 := sortStable_perm (fun x y => overallGt x.score.overall y.score.overall)
    ((if (o.categories.getD []).length > 0 then
        ((u ++ g).filter (agePasses now (o.timeWindow.getD 24))).filter
          (categoryPasses (o.categories.getD []))
      else
        (u ++ g).filter (agePasses now (o.timeWindow.getD 24))).filter
      (scorePasses (o.minScore.getD 0.1)))
  have h3 : List.Sublist
      ((if (o.categories.getD []).length > 0 then
          ((u ++ g).filter (agePasses now (o.timeWindow.getD 24))).filter
            (categoryPasses (o.categories.getD []))
        else
          (u ++ g).filter (agePasses now (o.timeWindow.getD 24))).filter
        (scorePasses (o.minScore.getD 0.1))) (u ++ g) := by
    apply List.Sublist.trans (List.filter_sublist _)
    by_cases hc : (o.categories.getD []).length > 0
    · rw [if_pos hc]
      exact List.Sublist.trans (List.filter_sublist _) (List.filter_sublist _)
    · rw [if_neg hc]
      exact List.filter_sublist _
  exact (h1.subperm.trans h2.subperm).trans h3.subperm

/-! ## Converter lemmas -/

theorem jsParseInt_zero : jsParseInt "0" = some 0 := by decide

theorem jsParseInt_abc : jsParseInt "abc" = none := by decide

/-- C7 (amended): `convertYouTubeToRankedTrends` yields one candidate per
video and never raises (the model is total); an absent `statistics` object
(or absent counter) parses the fallback string `"0"` and stores metric 0;
but a malformed (non-numeric) counter string parses to `NaN` — stored as
`NaN` (modelled `none`), not 0 — since JS `parseInt` returns `NaN`, not 0,
on parse failure.  Downstream scoring reads such a `NaN` metric as 0 via
`metrics.f || 0`. -/
theorem claim7_youtube_conversion (now : ℚ) (videos : List YouTubeVideo)
    (v : YouTubeVideo) :
    (convertYouTubeToRankedTrends now videos).length = videos.length ∧
    (v.statistics = none →
      (convertYouTubeOne now v).metrics.views = some 0 ∧
      (convertYouTubeOne now v).metrics.likes = some 0 ∧
      (convertYouTubeOne now v).metrics.comments = some 0 ∧
      (convertYouTubeOne now v).metrics.shares = none ∧
      (convertYouTubeOne now v).metrics.retweets = none) ∧
    (∀ s str, v.statistics = some s → s.viewCount = some str → str ≠ "" →
      (convertYouTubeOne now v).metrics.views =
        (jsParseInt str).map (fun n : ℤ => (n : ℚ))) := by
  refine ⟨List.length_map _ _, ?_, ?_⟩
  · intro h
    have hv : (convertYouTubeOne now v).metrics =
        { views := (jsParseInt (jsOrStr (v.statistics.bind (fun s => s.viewCount)) "0")).map
            (fun n : ℤ => (n : ℚ))
          likes := (jsParseInt (jsOrStr (v.statistics.bind (fun s => s.likeCount)) "0")).map
            (fun n : ℤ => (n : ℚ))
          comments := (jsParseInt (jsOrStr (v.statistics.bind (fun s => s.commentCount)) "0")).map
            (fun n : ℤ => (n : ℚ))
          shares := none
          retweets := none } := by rfl
    rw [hv, h]
    simp [jsOrStr, jsParseInt_zero]
  · intro s str hs hstr hne
    have hv : (convertYouTubeOne now v).metrics.views =
        (jsParseInt (jsOrStr (v.statistics.bind (fun s => s.viewCount)) "0")).map
          (fun n : ℤ => (n : ℚ)) := by rfl
    rw [hv, hs]
    show (jsParseInt (jsOrStr s.viewCount "0")).map _ = _
    rw [hstr, jsOrStr, if_neg hne]

/-- C7 witness: a video with no statistics object converts with all three
parsed counters equal to 0. -/
theorem claim7_youtube_conversion_witness :
    (convertYouTubeToRankedTrends 0 [noStatsVideo]).length = 1 ∧
    (convertYouTubeOne 0 noStatsVideo).metrics.views = some 0 :=
  ⟨(claim7_youtube_conversion 0 [noStatsVideo] noStatsVideo).1,
   ((claim7_youtube_conversion 0 [noStatsVideo] noStatsVideo).2.1 rfl).1⟩

/-- C7 counterexample: a video whose `viewCount` is the non-numeric string
`"abc"` converts to a candidate whose stored `views` metric is `NaN`
(modelled `none`), not the 0 the claim asserts. -/
theorem claim7_counterexample :
    (convertYouTubeToRankedTrends 0 [malformedViewsVideo]).map (fun t => t.metrics.views) =
      [none] ∧ (none : Option ℚ) ≠ some 0 := by
  constructor
  · show [(convertYouTubeOne 0 malformedViewsVideo).metrics.views] = [none]
    have hv : (convertYouTubeOne 0 malformedViewsVideo).metrics.views =
        (jsParseInt (jsOrStr (malformedViewsVideo.statistics.bind (fun s => s.viewCount)) "0")).map
          (fun n : ℤ => (n : ℚ)) := by rfl
    rw [hv]
    have : malformedViewsVideo.statistics.bind (fun s => s.viewCount) = some "abc" := rfl
    rw [this]
    rw [show jsOrStr (some "abc") "0" = "abc" from rfl]
    rw [jsParseInt_abc]
    rfl
  · simp

/-! ## Extraction lemmas -/

theorem charToNat_ofNat_valid (n : ℕ) (h : n.isValidChar) : (Char.ofNat n).toNat = n := by
  rw [Char.ofNat, dif_pos h]
  rfl

theorem isUpper_toNat_range (c : Char) (h : c.isUpper = true) :
    65 ≤ c.toNat ∧ c.toNat ≤ 90 := by
  simp only [Char.isUpper, Bool.and_eq_true, decide_eq_true_eq] at h
  obtain ⟨h1, h2⟩ := h
  rw [ge_iff_le] at h1
  rw [UInt32.le_def, BitVec.le_def] at h1 h2
  constructor
  · simpa [Char.toNat, UInt32.toNat] using h1
  · simpa [Char.toNat, UInt32.toNat] using h2

theorem toLower_upper_ne_at (c : Char) (h : c.isUpper = true) :
    Char.toLower c ≠ '@' := by
  obtain ⟨h1, h2⟩ := isUpper_toNat_range c h
  intro heq
  have h64 : (Char.toLower c).toNat = 64 := by rw [heq]; rfl
  rw [Char.toLower] at h64
  simp only [ge_iff_le] at h64
  rw [if_pos ⟨h1, h2⟩] at h64
  rw [charToNat_ofNat_valid _ (Or.inl (by omega))] at h64
  omega

theorem tokenMatchesF_head (p : Char) : ∀ (fuel : ℕ) (l : List Char),
    ∀ m ∈ tokenMatchesF p fuel l, ∃ rest, m = p :: rest := by
  intro fuel
  induction fuel with
  | zero =>
    intro l m hm
    simp [tokenMatchesF] at hm
  | succ k ih =>
    intro l m hm
    cases l with
    | nil => simp [tokenMatchesF] at hm
    | cons c cs =>
      rw [tokenMatchesF] at hm
      split_ifs at hm with hc
      · rcases List.mem_cons.1 hm with rfl | hmem
        · exact ⟨cs.takeWhile isWordChar, by rw [hc.1]⟩
        · exact ih _ m hmem
      · exact ih _ m hm

theorem tokenMatches_head (p : Char) (l : List Char) :
    ∀ m ∈ tokenMatches p l, ∃ rest, m = p :: rest :=
  tokenMatchesF_head p l.length l

theorem phraseMatchesF_head : ∀ (fuel : ℕ) (prev : Option Char) (l : List Char),
    ∀ m ∈ phraseMatchesF fuel prev l, ∃ c rest, m = c :: rest ∧ c.isUpper = true := by
  intro fuel
  induction fuel with
  | zero =>
    intro prev l m hm
    simp [phraseMatchesF] at hm
  | succ k ih =>
    intro prev l m hm
    cases l with
    | nil => simp [phraseMatchesF] at hm
    | cons c1 t1 =>
      rw [phraseMatchesF] at hm
      split_ifs at hm with hb
      · split at hm
        · split_ifs at hm with h2
          · rcases List.mem_cons.1 hm with rfl | hmem
            · exact ⟨c1, _, rfl, hb.2.1⟩
            · exact ih _ _ m hmem
          · exact ih _ _ m hm
        · exact ih _ _ m hm
      · exact ih _ _ m hm

theorem phraseMatches_head (prev : Option Char) (l : List Char) :
    ∀ m ∈ phraseMatches prev l, ∃ c rest, m = c :: rest ∧ c.isUpper = true :=
  phraseMatchesF_head l.length prev l

theorem dedupFirstF_mem (a : String) : ∀ (fuel : ℕ) (l : List String),
    l.length ≤ fuel → (a ∈ dedupFirstF fuel l ↔ a ∈ l) := by
  intro fuel
  induction fuel with
  | zero =>
    intro l hl
    have : l = [] := List.length_eq_zero.1 (Nat.le_zero.1 hl)
    subst this
    simp [dedupFirstF]
  | succ k ih =>
    intro l hl
    cases l with
    | nil => simp [dedupFirstF]
    | cons x xs =>
      rw [dedupFirstF]
      have hflen : (xs.filter fun y => y ≠ x).length ≤ k :=
        le_trans (List.length_filter_le _ _) (Nat.succ_le_succ_iff.1 (by simpa using hl))
      constructor
      · intro h
        rcases List.mem_cons.1 h with rfl | hmem
        · exact List.mem_cons_self _ _
        · exact List.mem_cons_of_mem _ (List.mem_of_mem_filter ((ih _ hflen).1 hmem))
      · intro h
        rcases List.mem_cons.1 h with rfl | hmem
        · exact List.mem_cons_self _ _
        · by_cases hax : a = x
          · subst hax
            exact List.mem_cons_self _ _
          · exact List.mem_cons_of_mem _
              ((ih _ hflen).2 (List.mem_filter.2 ⟨hmem, by simpa using hax⟩))

theorem dedupFirst_mem (l : List String) (a : String) : a ∈ dedupFirst l ↔ a ∈ l :=
  dedupFirstF_mem a l.length l (le_refl _)

theorem extractedTrendsList_eq (content : String) :
    extractedTrendsList content =
      (tokenMatches '#' content.toList).map lowerStr ++
        ((tokenMatches '@' content.toList).take 5).map lowerStr ++
        trendingKeywords.filter (fun kw => 0 < keywordScore content kw) ++
        ((phraseMatches none content.toList).take 10).map lowerStr := rfl

theorem extractTrendingTopics_eq (content : String) :
    extractTrendingTopics content =
      (sortStable
        (fun u s => decide (relevanceScore content s < relevanceScore content u))
        (dedupFirst (extractedTrendsList content))).take 15 := rfl

theorem lowerStr_toList (cs : List Char) : (lowerStr cs).toList = cs.map Char.toLower := rfl

theorem trendingKeywords_head : ∀ kw ∈ trendingKeywords, kw.toList.head? ≠ some '@' := by
  decide

/-- C8 (amended): `extractTrendingTopics` collects every `#word` token and
the first five `@word` tokens of the text, lower-cased (together with matched
vocabulary keywords and capitalized two-word phrases), but the returned list
is deduplicated, re-ordered by a relevance score and truncated to at most 15
entries; so every output entry beginning with `@` is one of the first five
lower-cased mention tokens, and every lower-cased hashtag token is in the
output provided the deduplicated collected list has at most 15 entries —
with more entries, hashtags beyond the cap are dropped. -/
theorem claim8_extract_trending_topics (content : String) :
    (extractTrendingTopics content).length ≤ 15 ∧
    (∀ s ∈ extractTrendingTopics content, jsStartsWithChar s '@' = true →
      s ∈ ((tokenMatches '@' content.toList).take 5).map lowerStr) ∧
    ((dedupFirst (extractedTrendsList content)).length ≤ 15 →
      ∀ m ∈ tokenMatches '#' content.toList, lowerStr m ∈ extractTrendingTopics content) := by
  refine ⟨?_, ?_, ?_⟩
  · rw [extractTrendingTopics_eq, List.length_take]
    exact min_le_left _ _
  · intro s hs hat
    simp only [jsStartsWithChar, decide_eq_true_eq] at hat
    have hmem : s ∈ extractedTrendsList content := by
      rw [extractTrendingTopics_eq] at hs
      have h1 := (List.take_sublist _ _).mem hs
      have h2 := (sortStable_perm _ _).subset h1
      exact (dedupFirst_mem _ s).1 h2
    rw [extractedTrendsList_eq] at hmem
    rcases List.mem_append.1 hmem with h3 | hph
    · rcases List.mem_append.1 h3 with h4 | hkw
      · rcases List.mem_append.1 h4 with hht | hmt
        · obtain ⟨m, hm, rfl⟩ := List.mem_map.1 hht
          obtain ⟨rest, rfl⟩ := tokenMatches_head '#' content.toList m hm
          rw [lowerStr_toList] at hat
          simp only [List.map_cons, List.head?_cons, Option.some.injEq] at hat
          exact absurd hat (by decide)
        · exact hmt
      · have hkw2 := List.mem_of_mem_filter hkw
        exact absurd hat (trendingKeywords_head s hkw2)
    · obtain ⟨m, hm, rfl⟩ := List.mem_map.1 hph
      obtain ⟨c, rest, rfl, hup⟩ := phraseMatches_head none content.toList m
        ((List.take_sublist _ _).mem hm)
      rw [lowerStr_toList] at hat
      simp only [List.map_cons, List.head?_cons, Option.some.injEq] at hat
      exact absurd hat (toLower_upper_ne_at c hup)
  · intro hlen m hm
    have htr : lowerStr m ∈ extractedTrendsList content := by
      rw [extractedTrendsList_eq]
      exact List.mem_append.2 (Or.inl (List.mem_append.2 (Or.inl
        (List.mem_append.2 (Or.inl (List.mem_map_of_mem _ hm))))))
    have hdedup : lowerStr m ∈ dedupFirst (extractedTrendsList content) :=
      (dedupFirst_mem _ _).2 htr
    have hsort : lowerStr m ∈ sortStable
        (fun u s => decide (relevanceScore content s < relevanceScore content u))
        (dedupFirst (extractedTrendsList content)) :=
      (sortStable_perm _ _).symm.subset hdedup
    rw [extractTrendingTopics_eq]
    have hlen2 : (sortStable
        (fun u s => decide (relevanceScore content s < relevanceScore content u))
        (dedupFirst (extractedTrendsList content))).length ≤ 15 := by
      rw [(sortStable_perm _ _).length_eq]
      exact hlen
    rw [List.take_of_length_le hlen2]
    exact hsort

/-- C8 witness: on a small social text the single hashtag, lower-cased, is
in the output. -/
theorem claim8_extract_trending_topics_witness :
    (dedupFirst (extractedTrendsList smallSocialText)).length ≤ 15 ∧
    lowerStr ['#', 'H', 'e', 'l', 'l', 'o'] ∈ extractTrendingTopics smallSocialText :=
  ⟨by decide,
   (claim8_extract_trending_topics smallSocialText).2.2 (by decide)
     ['#', 'H', 'e', 'l', 'l', 'o'] (by decide)⟩

/-- C8 counterexample: with sixteen distinct hashtags the sixteenth is a
hashtag token of the text whose lower-cased form is missing from the result
— the final cap of 15 drops it, so "every hashtag token contributes to the
result" fails as stated. -/
theorem claim8_counterexample :
    "#a16" ∈ (tokenMatches '#' sixteenHashtags.toList).map lowerStr ∧
    "#a16" ∉ extractTrendingTopics sixteenHashtags := by decide

end CreatorPulse
